import Mathlib

/-!
Verification of the NABIMFD mapper (`map.py`) and its orchestrator
(`orchestrator.py`).  The Python code is shallowly embedded: strings are
`String`/`List Char` (ASCII fragment; all data handled by the pipeline is
ASCII), floats are `ℚ`, pandas-missing cells (`NaN`) are `Option.none`,
and exception handling is made explicit in the return values.
-/

namespace NABIMFD

/-! ### Python string primitives (ASCII model) -/

/-- ASCII whitespace, the characters matched by Python `str.strip()` and by
the regex class `\s` on the ASCII plane. -/
def isPySpace (c : Char) : Bool :=
  c == ' ' || c == '\t' || c == '\n' || c == '\r' || c == '\x0b' || c == '\x0c'

/-- The characters excluded by the regex class `[^\r\n\t]` in `map.py`. -/
def isCRLFTab (c : Char) : Bool :=
  c == '\r' || c == '\n' || c == '\t'

/-- Python `str.strip()` on a character list. -/
def pyStripL (l : List Char) : List Char :=
  ((l.dropWhile isPySpace).reverse.dropWhile isPySpace).reverse

/-- Python `str.strip()`. -/
def pyStrip (s : String) : String := ⟨pyStripL s.data⟩

/-- Python `str.upper()` (ASCII). -/
def pyUpper (s : String) : String := ⟨s.data.map Char.toUpper⟩

/-- Python `str.lower()` (ASCII). -/
def pyLower (s : String) : String := ⟨s.data.map Char.toLower⟩

/-- Python `str.replace(' ', '')`. -/
def removeSpaces (s : String) : String := ⟨s.data.filter (fun c => c != ' ')⟩

/-- Python slicing `s[:n]`. -/
def strTake (s : String) (n : ℕ) : String := ⟨s.data.take n⟩

/-- Case-sensitive "does `needle` occur at the head of `hay`". -/
def startsWithL : List Char → List Char → Bool
  | [], _ => true
  | _ :: _, [] => false
  | a :: as, b :: bs => a == b && startsWithL as bs

/-- Python `needle in hay` (substring containment, case-sensitive). -/
def containsSubL (needle : List Char) : List Char → Bool
  | [] => startsWithL needle []
  | c :: t => startsWithL needle (c :: t) || containsSubL needle t

/-- Python `needle in hay` on `String`. -/
def containsSub (needle hay : String) : Bool := containsSubL needle.data hay.data

/-! ### Python `float()` (finite-decimal fragment)

`map.py` line 235 calls `float(clean_amount)` inside a `try`.  We model the
finite decimal-literal fragment of `float()`: optional sign, digits with an
optional fractional part, optional exponent, with surrounding whitespace
allowed.  The special literals (`inf`, `nan`, underscore separators) are
outside the modelled fragment; no claim depends on them, and `'nan'` is
intercepted before `float()` is reached (line 235). -/

def digVal (c : Char) : ℕ := c.toNat - '0'.toNat

def digitsToNat (l : List Char) : ℕ := l.foldl (fun a c => 10 * a + digVal c) 0

/-- Parse the body of a decimal literal (no surrounding whitespace). -/
def pyFloatCore (l : List Char) : Option ℚ :=
  let neg : Bool := l.head? = some '-'
  let l1 : List Char := match l with
    | '+' :: t => t
    | '-' :: t => t
    | _ => l
  let ip := l1.takeWhile Char.isDigit
  let l2 := l1.dropWhile Char.isDigit
  let hasDot : Bool := l2.head? = some '.'
  let fp : List Char := match l2 with
    | '.' :: t => t.takeWhile Char.isDigit
    | _ => []
  let l3 : List Char := match l2 with
    | '.' :: t => t.dropWhile Char.isDigit
    | _ => l2
  if ip.isEmpty && (!hasDot || fp.isEmpty) then none
  else
    let mant : ℚ :=
      if fp.isEmpty then (digitsToNat ip : ℚ)
      else (digitsToNat ip : ℚ) + (digitsToNat fp : ℚ) / ((10 : ℚ) ^ fp.length)
    let smant : ℚ := if neg then -mant else mant
    match l3 with
    | [] => some smant
    | e :: t =>
      if e == 'e' || e == 'E' then
        let esgn : ℤ := if t.head? = some '-' then -1 else 1
        let t1 : List Char := match t with
          | '+' :: u => u
          | '-' :: u => u
          | _ => t
        let ed := t1.takeWhile Char.isDigit
        let rest := t1.dropWhile Char.isDigit
        if !ed.isEmpty && rest.isEmpty then
          some (smant * (10 : ℚ) ^ (esgn * (digitsToNat ed : ℤ)))
        else none
      else none

/-- Python `float(s)` restricted to decimal literals; `none` models a raised
`ValueError`. -/
def pyFloat (s : String) : Option ℚ := pyFloatCore (pyStripL s.data)

/-! ### The amount parser (`map.py` lines 229-237) -/

/-- Python `str(x)` applied to a pandas cell; a missing cell (`NaN`) prints
as `"nan"`. -/
def pyStr (o : Option String) : String :=
  match o with
  | some s => s
  | none => "nan"

/-- Python `s.replace(',', '').replace(' ', '')` (`map.py` line 234). -/
def removeCommasSpaces (s : String) : String :=
  ⟨s.data.filter (fun c => c != ',' && c != ' ')⟩

/-- `map.py` lines 229-237: strip the raw amount cell, delete commas and
spaces, and convert with `float`; the guard at line 235 maps the empty
string and the literal `'nan'` to `None`, and the surrounding
`try`/`except` maps any `float` failure to `None` as well. -/
def parseAmount (amountField : Option String) : Option ℚ :=
  let amount_str := pyStrip (pyStr amountField)
  let clean := removeCommasSpaces amount_str
  if clean != "" && clean != "nan" then pyFloat clean else none

/-! ### The country registry (`map.py` lines 12-68)

`COUNTRY_CODES` is the dict literal at lines 12-54 (a Python dict keeps
insertion order and has unique keys); `STANDARD_COLUMN_ORDER` is the list
at lines 56-68.  Both are module-level constants that no code mutates. -/

def COUNTRY_CODES : List (String × String) := [
  ("Australia", "NABIMFD.AUS.M"),
  ("Austria", "NABIMFD.AUT.M"),
  ("Belgium", "NABIMFD.BEL.M"),
  ("Brazil", "NABIMFD.BRA.M"),
  ("Canada", "NABIMFD.CAN.M"),
  ("Chile", "NABIMFD.CHL.M"),
  ("China", "NABIMFD.CHN.M"),
  ("Cyprus", "NABIMFD.CYP.M"),
  ("Denmark", "NABIMFD.DNK.M"),
  ("Finland", "NABIMFD.FIN.M"),
  ("France", "NABIMFD.FRA.M"),
  ("Germany", "NABIMFD.DEU.M"),
  ("Greece", "NABIMFD.GRC.M"),
  ("India", "NABIMFD.IND.M"),
  ("Ireland", "NABIMFD.IRL.M"),
  ("Israel", "NABIMFD.ISR.M"),
  ("Italy", "NABIMFD.ITA.M"),
  ("Japan", "NABIMFD.JPN.M"),
  ("Korea", "NABIMFD.KOR.M"),
  ("Kuwait", "NABIMFD.KWT.M"),
  ("Luxembourg", "NABIMFD.LUX.M"),
  ("Malaysia", "NABIMFD.MYS.M"),
  ("Mexico", "NABIMFD.MEX.M"),
  ("Netherlands", "NABIMFD.NLD.M"),
  ("New Zealand", "NABIMFD.NZL.M"),
  ("Norway", "NABIMFD.NOR.M"),
  ("Philippines", "NABIMFD.PHL.M"),
  ("Poland", "NABIMFD.POL.M"),
  ("Portugal", "NABIMFD.PRT.M"),
  ("Russian Federation", "NABIMFD.RUS.M"),
  ("Russia", "NABIMFD.RUS.M"),
  ("Saudi Arabia", "NABIMFD.SAU.M"),
  ("Singapore", "NABIMFD.SGP.M"),
  ("South Africa", "NABIMFD.ZAF.M"),
  ("Spain", "NABIMFD.ESP.M"),
  ("Sweden", "NABIMFD.SWE.M"),
  ("Switzerland", "NABIMFD.CHE.M"),
  ("Thailand", "NABIMFD.THA.M"),
  ("United Kingdom", "NABIMFD.GBR.M"),
  ("United States", "NABIMFD.USA.M"),
  ("Hong Kong", "NABIMFD.HKG.M")]

def STANDARD_COLUMN_ORDER : List String := [
  "",
  "NABIMFD.AUS.M", "NABIMFD.AUT.M", "NABIMFD.BEL.M", "NABIMFD.BRA.M",
  "NABIMFD.CAN.M", "NABIMFD.CHL.M", "NABIMFD.CHN.M", "NABIMFD.CYP.M",
  "NABIMFD.DNK.M", "NABIMFD.FIN.M", "NABIMFD.FRA.M", "NABIMFD.DEU.M",
  "NABIMFD.GRC.M", "NABIMFD.IND.M", "NABIMFD.IRL.M", "NABIMFD.ISR.M",
  "NABIMFD.ITA.M", "NABIMFD.JPN.M", "NABIMFD.KOR.M", "NABIMFD.KWT.M",
  "NABIMFD.LUX.M", "NABIMFD.MYS.M", "NABIMFD.MEX.M", "NABIMFD.NLD.M",
  "NABIMFD.NZL.M", "NABIMFD.NOR.M", "NABIMFD.PHL.M", "NABIMFD.POL.M",
  "NABIMFD.PRT.M", "NABIMFD.RUS.M", "NABIMFD.SAU.M", "NABIMFD.SGP.M",
  "NABIMFD.ZAF.M", "NABIMFD.ESP.M", "NABIMFD.SWE.M", "NABIMFD.CHE.M",
  "NABIMFD.THA.M", "NABIMFD.GBR.M", "NABIMFD.USA.M", "NABIMFD.HKG.M"]

/-- The literal list of three-letter codes at `map.py` line 247. -/
def THREE_LETTER_CODES : List String :=
  ["AUS", "AUT", "BEL", "BRA", "CAN", "CHL", "CHN", "CYP", "DNK", "FIN",
   "FRA", "DEU", "GRC", "IND", "IRL", "ISR", "ITA", "JPN", "KOR", "KWT",
   "LUX", "MYS", "MEX", "NLD", "NZL", "NOR", "PHL", "POL", "PRT", "RUS",
   "SAU", "SGP", "ZAF", "ESP", "SWE", "CHE", "THA", "GBR", "USA"]

/-- The `code_to_country_map` dict literal at `map.py` lines 249-289. -/
def CODE_TO_COUNTRY_MAP : List (String × String) := [
  ("AUS", "Australia"), ("AUT", "Austria"), ("BEL", "Belgium"),
  ("BRA", "Brazil"), ("CAN", "Canada"), ("CHL", "Chile"),
  ("CHN", "China"), ("CYP", "Cyprus"), ("DNK", "Denmark"),
  ("FIN", "Finland"), ("FRA", "France"), ("DEU", "Germany"),
  ("GRC", "Greece"), ("IND", "India"), ("IRL", "Ireland"),
  ("ISR", "Israel"), ("ITA", "Italy"), ("JPN", "Japan"),
  ("KOR", "Korea"), ("KWT", "Kuwait"), ("LUX", "Luxembourg"),
  ("MYS", "Malaysia"), ("MEX", "Mexico"), ("NLD", "Netherlands"),
  ("NZL", "New Zealand"), ("NOR", "Norway"), ("PHL", "Philippines"),
  ("POL", "Poland"), ("PRT", "Portugal"), ("RUS", "Russian Federation"),
  ("SAU", "Saudi Arabia"), ("SGP", "Singapore"), ("ZAF", "South Africa"),
  ("ESP", "Spain"), ("SWE", "Sweden"), ("CHE", "Switzerland"),
  ("THA", "Thailand"), ("GBR", "United Kingdom"), ("USA", "United States")]

/-- The `exact_matches` dict literal at `map.py` lines 304-319. -/
def EXACT_MATCHES : List (String × List String) := [
  ("Australia", ["Australia"]),
  ("Austria", ["Austria"]),
  ("Belgium", ["Belgium"]),
  ("Hong Kong", ["Hong Kong Monetary Authority", "HKMA"]),
  ("Chile", ["Chile (Banco Central de Chile)"]),
  ("Denmark", ["Denmark (Danmarks Nationalbank)"]),
  ("Germany", ["Germany (Deutsche Bundesbank)"]),
  ("Israel", ["Israel (Bank of Israel)"]),
  ("Netherlands", ["Netherlands, The"]),
  ("Philippines", ["Philippines (Bangko Sentral ng Pilipinas)"]),
  ("Poland", ["Poland, Republic of (National Bank of Poland)"]),
  ("Portugal", ["Portugal (Banco de Portugal)"]),
  ("Sweden", ["Sweden (Sveriges Riksbank)"]),
  ("Switzerland", ["Switzerland (Swiss National Bank)"])]

/-- The `simple_country_names` list at `map.py` lines 337-343. -/
def SIMPLE_COUNTRY_NAMES : List String :=
  ["Brazil", "Canada", "China", "Cyprus", "Finland", "France",
   "Greece", "India", "Ireland", "Italy", "Japan", "Korea",
   "Kuwait", "Luxembourg", "Malaysia", "Mexico", "New Zealand",
   "Norway", "Russian Federation", "Saudi Arabia", "Singapore",
   "South Africa", "Spain", "Thailand", "United Kingdom", "United States"]

/-! ### The country resolver (`map.py` lines 240-356)

Each tier returns the output code whose column the record's amount is
written to (`data_row[idx] = amount`), or `none` when the tier falls
through without a `break`. -/

/-- Tier 1 (`map.py` lines 243-299): iterate `COUNTRY_CODES` in insertion
order; an entry fires when its code is a standard column, the uppercased
member code equals the first three letters of the country name with
spaces removed, the member code is in the fixed 39-code list, and the
`code_to_country_map` round trip lands on a standard column. -/
def codeTierLoop (mc : String) : List (String × String) → Option String
  | [] => none
  | (country, code) :: rest =>
    if code ∈ STANDARD_COLUMN_ORDER ∧
        pyUpper mc = strTake (pyUpper (removeSpaces country)) 3 then
      if pyUpper mc ∈ THREE_LETTER_CODES then
        match CODE_TO_COUNTRY_MAP.lookup (pyUpper mc) with
        | some matched_country =>
          match COUNTRY_CODES.lookup matched_country with
          | some country_code =>
            if country_code ∈ STANDARD_COLUMN_ORDER then some country_code
            else codeTierLoop mc rest
          | none => codeTierLoop mc rest
        | none => codeTierLoop mc rest
      else codeTierLoop mc rest
    else codeTierLoop mc rest

def codeTier (member_code : String) : Option String :=
  codeTierLoop member_code COUNTRY_CODES

/-- The per-variant test at `map.py` line 324:
`variant.lower() == member_name.lower() or variant in member_name`. -/
def variantMatches (member_name variant : String) : Bool :=
  pyLower variant == pyLower member_name || containsSub variant member_name

/-- Inner loop over one country's variants (`map.py` lines 323-331). -/
def aliasVariantLoop (member_name code : String) : List String → Option String
  | [] => none
  | v :: vs =>
    if variantMatches member_name v then
      if code ∈ STANDARD_COLUMN_ORDER then some code
      else aliasVariantLoop member_name code vs
    else aliasVariantLoop member_name code vs

/-- Tier 2 (`map.py` lines 302-333): the `exact_matches` table. -/
def aliasTierLoop (member_name : String) : List (String × List String) → Option String
  | [] => none
  | (country, variants) :: rest =>
    match COUNTRY_CODES.lookup country with
    | some code =>
      match aliasVariantLoop member_name code variants with
      | some c => some c
      | none => aliasTierLoop member_name rest
    | none => aliasTierLoop member_name rest

def aliasTier (member_name : String) : Option String :=
  aliasTierLoop member_name EXACT_MATCHES

/-- Tier 3 (`map.py` lines 336-353): bare-name matching over the
restricted `simple_country_names` list. -/
def simpleTierLoop (member_name : String) : List String → Option String
  | [] => none
  | country :: rest =>
    if (COUNTRY_CODES.lookup country).isSome ∧
        pyLower country = pyLower member_name then
      match COUNTRY_CODES.lookup country with
      | some code =>
        if code ∈ STANDARD_COLUMN_ORDER then some code
        else simpleTierLoop member_name rest
      | none => simpleTierLoop member_name rest
    else simpleTierLoop member_name rest

def simpleTier (member_name : String) : Option String :=
  simpleTierLoop member_name SIMPLE_COUNTRY_NAMES

/-- The full resolution order (`map.py` lines 240-356): code tier, then
alias tier, then simple-name tier; `none` means the record is logged as
unmapped and dropped. -/
def resolveMember (member_name member_code : String) : Option String :=
  match codeTier member_code with
  | some c => some c
  | none =>
    match aliasTier member_name with
    | some c => some c
    | none => simpleTier member_name

/-! ### Records and the filter pipeline (`map.py` lines 142-239)

A `Rec` is one parsed TSV data row with the eleven columns named at
line 144; `none` models a pandas missing value (`NaN`), which is how
`read_csv` represents an empty cell. -/

structure Rec where
  memberName : Option String
  memberCode : Option String
  typ : Option String
  facility : Option String
  startDate : Option String
  expiration : Option String
  revolving : Option String
  amount : Option String
  currency : Option String
  amountOutstandingSDR : Option String
  status : Option String
deriving DecidableEq

/-- A row with every cell missing, for building concrete records. -/
def blankRec : Rec :=
  ⟨none, none, none, none, none, none, none, none, none, none, none⟩

def NAB : String := "New Arrangement to Borrow"

/-- `map.py` line 151: rows whose member name contains `'Member'` are
removed (`.str.contains('Member', na=False) == False` keeps a `NaN` name). -/
def memberHeaderDrop (r : Rec) : Bool :=
  match r.memberName with
  | some n => !(containsSub "Member" n)
  | none => true

/-- `map.py` lines 150-151: `dropna` on the member, facility and amount
columns, then removal of header-looking rows. -/
def cleanRecords (rs : List Rec) : List Rec :=
  (rs.filter fun r =>
      r.memberName.isSome && r.facility.isSome && r.amount.isSome).filter
    memberHeaderDrop

/-- The facility predicate of `map.py` line 159:
`df['Facility'].str.strip() == "New Arrangement to Borrow"`
(`.str.strip()` of a missing cell stays missing and compares unequal). -/
def facilityMatch (r : Rec) : Bool :=
  match r.facility with
  | some f => pyStrip f == NAB
  | none => false

/-- `map.py` line 159: the record filter. -/
def filterFacility (rs : List Rec) : List Rec := rs.filter facilityMatch

/-- One iteration of the fill loop (`map.py` lines 226-356) reduced to its
effect: the target column index and the amount to write, or `none` when
the record contributes nothing (unparseable amount, or no tier matched). -/
def recTarget (r : Rec) : Option (ℕ × ℚ) :=
  let member_name := pyStrip (pyStr r.memberName)
  let member_code := match r.memberCode with
    | some c => pyStrip c
    | none => ""
  match parseAmount r.amount with
  | none => none
  | some amt =>
    match resolveMember member_name member_code with
    | none => none
    | some code => some (STANDARD_COLUMN_ORDER.indexOf code, amt)

/-- `data_row[idx] = amount` (`map.py` lines 296, 328, 350), or no write. -/
def processRecord (row : List (Option ℚ)) (r : Rec) : List (Option ℚ) :=
  match recTarget r with
  | none => row
  | some (i, a) => row.set i (some a)

/-- The amount cells of row 3 after the fill loop.  Index 0 mirrors
`data_row[0]`, which holds the report date in the source and is never a
write target (every registry code sits at index ≥ 1 of
`STANDARD_COLUMN_ORDER`); we track the date separately. -/
def buildCells (recs : List Rec) : List (Option ℚ) :=
  recs.foldl processRecord (List.replicate STANDARD_COLUMN_ORDER.length none)

/-! ### The mapper exit model and the sequencer check
(`map.py` lines 129-416, `orchestrator.py` lines 145-193, 249-308)

`map.py` wraps its whole body in `try`/`except Exception` (lines 137,
410-413): a serialization failure is printed and `main` returns normally,
so the process exits with status 0 in every case (`map.py` never calls
`sys.exit`).  The orchestrator deems the processing phase successful only
if the return code is 0 AND its expected output file exists; its expected
path is `nabimfd_summary.xlsx` in the script directory
(`orchestrator.py` line 26), while `map.py` writes
`output/NABIMFD_OUTPUT.xlsx` (`map.py` lines 8, 10, 363-365).
`run_pipeline` returns `False` when the phase fails and `main` exits
`1` on `False` (`orchestrator.py` lines 268-270, 305-308). -/

def mapOutputPath : String := "output/NABIMFD_OUTPUT.xlsx"

def orchExpectedOutput : String := "nabimfd_summary.xlsx"

structure MapRunResult where
  exitCode : ℕ
  files : List String
deriving DecidableEq

/-- Running `map.py` over a file system `files0`: on a successful
serialization its output file appears; the exit status is 0 whether or
not serialization raised, because the exception is caught and swallowed. -/
def runMapProcess (files0 : List String) (serializeOk : Bool) : MapRunResult :=
  { exitCode := 0
    files := if serializeOk then mapOutputPath :: files0 else files0 }

/-- `orchestrator.py` lines 172-183: phase 2 succeeds iff the return code
is 0 and the orchestrator's expected output file exists. -/
def runDataProcessingOk (res : MapRunResult) : Bool :=
  res.exitCode == 0 && res.files.contains orchExpectedOutput

/-- The pipeline exit status as far as phase 2 decides it
(`orchestrator.py` lines 268-270, 305-308): a failed processing phase
aborts the pipeline and the process exits 1. -/
def pipelineExitAfterProcessing (files0 : List String) (serializeOk : Bool) : ℕ :=
  if runDataProcessingOk (runMapProcess files0 serializeOk) then 0 else 1

/-! ### The date extractor (`map.py` lines 70-122)

The three `as_of_patterns` and the long-form date pattern are embedded as
deterministic scanners with Python `re` leftmost-match and greedy
backtracking semantics (checked against CPython `re` on the boundary
cases).  `datetime.strptime`/`strftime` become an explicit validity check
plus zero-padded formatting, and the `try`/`except` at lines 72/120 means
an invalid matched date (a `ValueError`) yields the current month.  The
current month `datetime.now().strftime('%Y-%m')` is passed in as `now`. -/

/-- Case-insensitive literal match of `pat` at the head of `cs`, returning
the remainder on success. -/
def dropCI : List Char → List Char → Option (List Char)
  | [], rest => some rest
  | _ :: _, [] => none
  | p :: ps, c :: rest =>
    if c.toLower = p.toLower then dropCI ps rest else none

/-- Does `pat` occur case-insensitively anywhere in the haystack
(Python `re.search` with only a literal pattern finds a match)? -/
def containsCI (pat : List Char) : List Char → Bool
  | [] => (dropCI pat []).isSome
  | c :: t => (dropCI pat (c :: t)).isSome || containsCI pat t

/-- `pat` matches case-insensitively at the head of `s`. -/
def ciPre (pat s : List Char) : Bool := (dropCI pat s).isSome

/-- The regex tail `\s*([^\r\n\t]+)` applied at a fixed position: greedy
whitespace skip, then a nonempty capture of characters outside
`{\r,\n,\t}`; when everything to the right is whitespace the engine
backtracks and captures the last character not in `{\r,\n,\t}`. -/
def capAfterWS (t : List Char) : Option (List Char) :=
  let r := t.dropWhile isPySpace
  if r.isEmpty then
    match t.reverse.dropWhile isCRLFTab with
    | c :: _ => some [c]
    | [] => none
  else some (r.takeWhile (fun c => !isCRLFTab c))

/-- Pattern 1, `r'As of:\s*([^\r\n\t]+)'` with `re.IGNORECASE`
(`map.py` line 81): leftmost occurrence, first captured group. -/
def pat1Search : List Char → Option (List Char)
  | [] => none
  | c :: rest =>
    match dropCI ("As of:".data) (c :: rest) with
    | some t =>
      match capAfterWS t with
      | some cap => some cap
      | none => pat1Search rest
    | none => pat1Search rest

/-- The `\s*:` step of pattern 2: greedy whitespace, then a literal colon. -/
def colonAfterWS (t : List Char) : Option (List Char) :=
  match t.dropWhile isPySpace with
  | c :: r => if c = ':' then some r else none
  | [] => none

/-- Pattern 2, `r'As of\s*:\s*([^\r\n\t]+)'` (`map.py` line 82). -/
def pat2Search : List Char → Option (List Char)
  | [] => none
  | c :: rest =>
    match dropCI ("As of".data) (c :: rest) with
    | some t =>
      match colonAfterWS t with
      | some t2 =>
        match capAfterWS t2 with
        | some cap => some cap
        | none => pat2Search rest
      | none => pat2Search rest
    | none => pat2Search rest

/-- The character class `[:\s]` of pattern 3. -/
def isColonOrSpace (c : Char) : Bool := c == ':' || isPySpace c

/-- The `[:\s]+([^\r\n\t]+)` tail of pattern 3 at a fixed position:
a nonempty greedy class run, then the capture; when the class run reaches
the end of the text, backtrack to the last char of the run outside
`{\r,\n,\t}`, keeping at least one class character consumed before it. -/
def pat3Tail (t : List Char) : Option (List Char) :=
  let run := t.takeWhile isColonOrSpace
  let rest := t.dropWhile isColonOrSpace
  if run.isEmpty then none
  else if rest.isEmpty then
    match run with
    | [] => none
    | _ :: tailRun =>
      match tailRun.reverse.dropWhile isCRLFTab with
      | c :: _ => some [c]
      | [] => none
  else some (rest.takeWhile (fun c => !isCRLFTab c))

/-- Pattern 3, `r'as of[:\s]+([^\r\n\t]+)'` (`map.py` line 83). -/
def pat3Search : List Char → Option (List Char)
  | [] => none
  | c :: rest =>
    match dropCI ("as of".data) (c :: rest) with
    | some t =>
      match pat3Tail t with
      | some cap => some cap
      | none => pat3Search rest
    | none => pat3Search rest

/-- The month alternation of the date pattern (`map.py` lines 93, 107),
in source order, with each month's number. -/
def MONTHS : List (String × ℕ) :=
  [("January", 1), ("February", 2), ("March", 3), ("April", 4),
   ("May", 5), ("June", 6), ("July", 7), ("August", 8),
   ("September", 9), ("October", 10), ("November", 11), ("December", 12)]

/-- Try the month alternatives in order at the head of `cs` (no month name
is a case-insensitive prefix of another, so at most one fits). -/
def monthLoop (cs : List Char) : List (String × ℕ) → Option (ℕ × List Char)
  | [] => none
  | (name, num) :: rest =>
    match dropCI name.data cs with
    | some r => some (num, r)
    | none => monthLoop cs rest

/-- Value of a decimal digit character. -/
def dval (c : Char) : ℕ := c.toNat - '0'.toNat

/-- The `,?` step: a comma at the head is consumed (when present it must
be, because the mandatory whitespace that follows cannot match it). -/
def commaSkip (cs : List Char) : List Char :=
  if cs.head? = some ',' then cs.tail else cs

/-- The `,?\s+(\d{4})` tail of the date pattern: the optional comma, at
least one whitespace character, then four digits; anything after the
fourth digit is left unconsumed. -/
def yearTail (cs : List Char) : Option ℕ :=
  if ((commaSkip cs).takeWhile isPySpace).isEmpty then none
  else
    match (commaSkip cs).dropWhile isPySpace with
    | a :: b :: c :: d :: _ =>
      if a.isDigit && b.isDigit && c.isDigit && d.isDigit then
        some (1000 * dval a + 100 * dval b + 10 * dval c + dval d)
      else none
    | _ => none

/-- The `(\d{1,2}),?\s+(\d{4})` part: the greedy two-digit day is tried
first and backtracks to one digit if the tail fails (a one-character
rest cannot host the mandatory whitespace and year, so it fails). -/
def matchDayYear (cs : List Char) : Option (ℕ × ℕ) :=
  match cs with
  | c1 :: c2 :: rest2 =>
    if c1.isDigit then
      if c2.isDigit then
        match yearTail rest2 with
        | some y => some (10 * dval c1 + dval c2, y)
        | none =>
          match yearTail (c2 :: rest2) with
          | some y => some (dval c1, y)
          | none => none
      else
        match yearTail (c2 :: rest2) with
        | some y => some (dval c1, y)
        | none => none
    else none
  | _ => none

/-- Attempt the whole date pattern
`(Month)\s+(\d{1,2}),?\s+(\d{4})` at the head of `cs`. -/
def matchDateAt (cs : List Char) : Option (ℕ × ℕ × ℕ) :=
  match monthLoop cs MONTHS with
  | none => none
  | some (m, rest) =>
    let w := rest.takeWhile isPySpace
    let rest2 := rest.dropWhile isPySpace
    if w.isEmpty then none
    else
      match matchDayYear rest2 with
      | some (d, y) => some (m, d, y)
      | none => none

/-- Leftmost match of the date pattern (`re.search`, and the first element
of `re.findall`). -/
def findDate : List Char → Option (ℕ × ℕ × ℕ)
  | [] => none
  | c :: rest =>
    match matchDateAt (c :: rest) with
    | some r => some r
    | none => findDate rest

/-- Gregorian leap year, as used by `datetime`. -/
def isLeap (y : ℕ) : Bool := y % 4 == 0 && (y % 100 != 0 || y % 400 == 0)

def daysInMonth (m y : ℕ) : ℕ :=
  if m = 2 then (if isLeap y then 29 else 28)
  else if m = 4 ∨ m = 6 ∨ m = 9 ∨ m = 11 then 30
  else 31

/-- Does `datetime.strptime('%B %d, %Y')` accept the matched groups?
`datetime` requires year ≥ 1 and a day within the month. -/
def validDate (m d y : ℕ) : Bool :=
  1 ≤ y && 1 ≤ d && d ≤ daysInMonth m y

def pad2 (n : ℕ) : String :=
  if n < 10 then "0" ++ toString n else toString n

def pad4 (n : ℕ) : String :=
  if n < 10 then "000" ++ toString n
  else if n < 100 then "00" ++ toString n
  else if n < 1000 then "0" ++ toString n
  else toString n

/-- `date_obj.strftime('%Y-%m')`. -/
def fmtYM (y m : ℕ) : String := pad4 y ++ "-" ++ pad2 m

/-- One iteration of the `for pattern in as_of_patterns` loop
(`map.py` lines 86-103) given that pattern's search result: `none` means
fall through to the next pattern; `some s` means the function returns `s`
(either the formatted date, or — when `strptime` raises on an
out-of-range date — the current month via the outer `except`). -/
def patStep (cap : Option (List Char)) (now : String) : Option String :=
  match cap with
  | none => none
  | some cs =>
    match findDate (pyStripL cs) with
    | none => none
    | some (m, d, y) => if validDate m d y then some (fmtYM y m) else some now

/-- `extract_date_from_tsv_file` (`map.py` lines 70-122) on the file's
text content, with the run-time current month passed as `now`. -/
def extract_date (content : String) (now : String) : String :=
  match patStep (pat1Search content.data) now with
  | some s => s
  | none =>
    match patStep (pat2Search content.data) now with
    | some s => s
    | none =>
      match patStep (pat3Search content.data) now with
      | some s => s
      | none =>
        match findDate content.data with
        | some (m, d, y) => if validDate m d y then fmtYM y m else now
        | none => now

/-- The mapper's row 3 (`map.py` lines 139, 177-179, 226-356): the report
date and the amount cells, from the artifact text and its parsed data
rows. -/
def mapperRow3 (content : String) (now : String) (recs : List Rec) :
    String × List (Option ℚ) :=
  (extract_date content now, buildCells (filterFacility (cleanRecords recs)))

/-! ### Concrete records and artifacts used by the claims -/

/-- The France data row of the end-to-end test artifact. -/
def recFrance500k : Rec :=
  { blankRec with
      memberName := some "France", memberCode := some "FRA",
      typ := some "GAB/NAB", facility := some "New Arrangement to Borrow",
      startDate := some "2021-01-01", expiration := some "2026-01-01",
      revolving := some "Yes", amount := some "500,000",
      currency := some "SDR", amountOutstandingSDR := some "0",
      status := some "Active" }

/-- The Stand-By data row of the end-to-end test artifact (empty member
code reads as a missing cell). -/
def recStandBy : Rec :=
  { blankRec with
      memberName := some "Stand-By Co.",
      typ := some "SBA", facility := some "Stand-By Arrangement",
      startDate := some "2021-01-01", expiration := some "2026-01-01",
      revolving := some "No", amount := some "999",
      currency := some "SDR", amountOutstandingSDR := some "0",
      status := some "Active" }

/-- Header text of the end-to-end test artifact. -/
def sampleContent : String := "IMF Financial Resources\nAs of: June 30, 2025\n"

/-- A record whose facility carries trailing spaces. -/
def recTrailingNAB : Rec :=
  { blankRec with
      memberName := some "France", memberCode := some "FRA",
      facility := some "New Arrangement to Borrow  ",
      amount := some "100" }

/-- A record with the excluded facility. -/
def recSBA : Rec :=
  { blankRec with
      memberName := some "Stand-By Co.",
      facility := some "Stand-By Arrangement",
      amount := some "999" }

/-- A New-Arrangement record whose amount cell is missing (`NaN`). -/
def recMissingAmt : Rec :=
  { blankRec with
      memberName := some "France",
      facility := some "New Arrangement to Borrow",
      amount := none }

/-- A New-Arrangement record whose amount is present but unparseable. -/
def recBadAmt : Rec :=
  { blankRec with
      memberName := some "France",
      facility := some "New Arrangement to Borrow",
      amount := some "abc" }

/-- A filtered record with an empty member code and a bare country name,
used for the simple-name-tier claims. -/
def mkBareRec (n : String) : Rec :=
  { blankRec with
      memberName := some n, memberCode := none,
      facility := some "New Arrangement to Borrow",
      amount := some "100" }

/-- Two France rows with different amounts, for last-write-wins. -/
def recFrance100 : Rec :=
  { blankRec with
      memberName := some "France", memberCode := some "FRA",
      facility := some "New Arrangement to Borrow",
      amount := some "100" }

def recFrance200 : Rec :=
  { blankRec with
      memberName := some "France", memberCode := some "FRA",
      facility := some "New Arrangement to Borrow",
      amount := some "200" }

/-! ## Helper lemmas -/

/-- A record whose target is empty writes nothing. -/
theorem processRecord_eq_of_none {row : List (Option ℚ)} {r : Rec}
    (h : recTarget r = none) : processRecord row r = row := by
  simp [processRecord, h]

/-- A record with a target writes its amount at its column index. -/
theorem processRecord_eq_of_some {row : List (Option ℚ)} {r : Rec} {i : ℕ} {a : ℚ}
    (h : recTarget r = some (i, a)) : processRecord row r = row.set i (some a) := by
  simp [processRecord, h]

/-! ## Claim theorems -/

/-- Claim C8: the amount parser strips thousands separators and
surrounding whitespace and parses a decimal: `"1,234,567"` yields
`1234567.0`; the empty string and the missing-value token (a missing
pandas cell, whose `str()` is `"nan"`, and the literal `"nan"` guard)
yield null; unparseable input such as `"abc"` yields null.  The embedded
parser is a total function into `Option ℚ`, mirroring the
`try`/`except` that keeps every failure from propagating to the caller. -/
theorem claim_C8_amount_parsing :
    parseAmount (some "1,234,567") = some (1234567 : ℚ) ∧
    parseAmount (some "") = none ∧
    parseAmount none = none ∧
    parseAmount (some "nan") = none ∧
    parseAmount (some "abc") = none := by
  exact ⟨by decide, by decide, by decide, by decide, by decide⟩

/-- Claim C5 counterexample: the registry maps the two distinct entries
`'Russian Federation'` and `'Russia'` to the same output code
`NABIMFD.RUS.M`, so the codes are not unique. -/
theorem claim_C5_counterexample :
    ("Russian Federation", "NABIMFD.RUS.M") ∈ COUNTRY_CODES ∧
    ("Russia", "NABIMFD.RUS.M") ∈ COUNTRY_CODES ∧
    ("Russian Federation" : String) ≠ "Russia" ∧
    ¬ COUNTRY_CODES.Pairwise (fun a b => a.2 ≠ b.2) := by
  exact ⟨by decide, by decide, by decide, by decide⟩

/-- Claim C5 amended: output codes are unique except for the single
duplicated pair — the entries `'Russian Federation'` and `'Russia'`
share `NABIMFD.RUS.M`; any two registry entries with the same code are
exactly that pair.  (The registry is a module-level constant in the
model, so immutability holds by construction.) -/
theorem claim_C5_amended :
    COUNTRY_CODES.Pairwise
      (fun a b => a.2 = b.2 → a.1 = "Russian Federation" ∧ b.1 = "Russia") := by
  decide

/-- Claim C6 counterexample: on a serialization failure `map.py` catches
the exception and the process still exits with status 0 — identical to
its exit status on success — so the mapper does not report a fatal error
to its caller; the orchestrator even logs the phase's return code as
success and only notices the missing file. -/
theorem claim_C6_counterexample :
    (runMapProcess [] false).exitCode = 0 ∧
    (runMapProcess [] true).exitCode = 0 ∧
    runDataProcessingOk (runMapProcess [] false) = false := by
  exact ⟨rfl, rfl, by decide⟩

/-- Claim C6 amended: the mapper's process exits 0 whether serialization
succeeded or failed (the exception is swallowed), and the pipeline
nevertheless exits non-zero, because the sequencer's success check also
requires its expected output artifact `nabimfd_summary.xlsx` — a file
the mapper never writes (it writes `output/NABIMFD_OUTPUT.xlsx`). -/
theorem claim_C6_amended :
    ∀ (files0 : List String) (serializeOk : Bool),
      (runMapProcess files0 serializeOk).exitCode = 0 ∧
      (files0.contains orchExpectedOutput = false →
        pipelineExitAfterProcessing files0 serializeOk = 1) := by
  intro files0 ok
  refine ⟨rfl, fun h => ?_⟩
  unfold pipelineExitAfterProcessing runDataProcessingOk runMapProcess
  cases ok <;> simp [mapOutputPath, orchExpectedOutput, h] at *
  <;> simp [h]

/-- Witness for C6: a run with an empty file system and a failing
serialization exits the mapper with 0 and the pipeline with 1. -/
theorem claim_C6_witness :
    (runMapProcess [] false).exitCode = 0 ∧
    pipelineExitAfterProcessing [] false = 1 :=
  ⟨(claim_C6_amended [] false).1, (claim_C6_amended [] false).2 (by decide)⟩

/-- Claim C4 counterexample: a record whose trimmed facility is exactly
`"New Arrangement to Borrow"` but whose amount cell is missing is dropped
by the cleaning step (`dropna`, `map.py` line 150) and therefore does not
survive to the facility filter's output, contradicting the claim that
missing-amount records survive the filter stage. -/
theorem claim_C4_counterexample :
    pyStrip (pyStr recMissingAmt.facility) = NAB ∧
    recMissingAmt ∉ filterFacility (cleanRecords [recMissingAmt]) := by
  exact ⟨by decide, by decide⟩

/-- Claim C4 amended: a New-Arrangement record with a present (possibly
unparseable) amount survives cleaning and the facility filter, and a
record whose amount fails to parse is excluded only at the mapping stage
(its fill-loop iteration writes nothing); records with a missing amount
cell are dropped earlier, by `dropna` at the cleaning step. -/
theorem claim_C4_amended :
    (∀ (rs : List Rec) (r : Rec) (f : String), r ∈ rs →
        r.memberName.isSome = true → memberHeaderDrop r = true →
        r.amount.isSome = true → r.facility = some f → pyStrip f = NAB →
        r ∈ filterFacility (cleanRecords rs)) ∧
    (∀ (row : List (Option ℚ)) (r : Rec), parseAmount r.amount = none →
        processRecord row r = row) := by
  constructor
  · intro rs r f hmem hname hhdr hamt hfac hnab
    refine List.mem_filter.mpr ⟨List.mem_filter.mpr ⟨List.mem_filter.mpr ⟨hmem, ?_⟩, hhdr⟩, ?_⟩
    · simp [hname, hamt, hfac]
    · simp [facilityMatch, hfac, hnab]
  · intro row r h
    refine processRecord_eq_of_none ?_
    simp [recTarget, h]

/-- Witness for C4: the unparseable-amount record survives the filter and
contributes nothing at the mapping stage. -/
theorem claim_C4_witness :
    recBadAmt ∈ filterFacility (cleanRecords [recBadAmt]) ∧
    processRecord (List.replicate 41 none) recBadAmt = List.replicate 41 none :=
  ⟨claim_C4_amended.1 [recBadAmt] recBadAmt "New Arrangement to Borrow"
      (by decide) (by decide) (by decide) (by decide) (by decide) (by decide),
   claim_C4_amended.2 (List.replicate 41 none) recBadAmt (by decide)⟩

/-- Claim C9: the record filter retains exactly the records whose
facility, trimmed of surrounding whitespace, equals
`"New Arrangement to Borrow"`; a row with trailing spaces in the facility
is retained and a Stand-By row is excluded. -/
theorem claim_C9_record_filter :
    (∀ (rs : List Rec) (r : Rec),
        r ∈ filterFacility rs ↔ r ∈ rs ∧ facilityMatch r = true) ∧
    (∀ (r : Rec) (f : String), r.facility = some f →
        (facilityMatch r = true ↔ pyStrip f = NAB)) ∧
    facilityMatch recTrailingNAB = true ∧
    facilityMatch recSBA = false ∧
    recTrailingNAB ∈ filterFacility [recTrailingNAB, recSBA] ∧
    recSBA ∉ filterFacility [recTrailingNAB, recSBA] := by
  refine ⟨?_, ?_, by decide, by decide, by decide, by decide⟩
  · intro rs r
    exact List.mem_filter
  · intro r f hf
    simp [facilityMatch, hf]

/-- Witness for C9: the characterizations applied to the trailing-space
record. -/
theorem claim_C9_witness :
    (recTrailingNAB ∈ filterFacility [recTrailingNAB, recSBA] ↔
      recTrailingNAB ∈ [recTrailingNAB, recSBA] ∧ facilityMatch recTrailingNAB = true) ∧
    (facilityMatch recTrailingNAB = true ↔
      pyStrip "New Arrangement to Borrow  " = NAB) :=
  ⟨claim_C9_record_filter.1 [recTrailingNAB, recSBA] recTrailingNAB,
   claim_C9_record_filter.2.1 recTrailingNAB "New Arrangement to Borrow  " (by decide)⟩

/-- Claim C10: a filtered record with an empty member code whose member
name is the bare name of one of the eleven countries that appear only
with qualified variants in the alias table resolves to no match (the
code tier needs a non-empty code, no alias variant equals or is contained
in the bare name, and these countries are absent from the simple-name
list), and its fill-loop iteration writes nothing. -/
theorem claim_C10_qualified_alias_drop :
    ∀ n ∈ (["Hong Kong", "Chile", "Denmark", "Germany", "Israel",
            "Netherlands", "Philippines", "Poland", "Portugal",
            "Sweden", "Switzerland"] : List String),
      resolveMember n "" = none ∧
      recTarget (mkBareRec n) = none ∧
      ∀ row : List (Option ℚ), processRecord row (mkBareRec n) = row := by
  intro n hn
  fin_cases hn <;>
    exact ⟨by decide, by decide, fun row => processRecord_eq_of_none (by decide)⟩

/-- Witness for C10: the bare name `"Hong Kong"` is dropped. -/
theorem claim_C10_witness :
    resolveMember "Hong Kong" "" = none ∧
    processRecord (List.replicate 41 none) (mkBareRec "Hong Kong") =
      List.replicate 41 none :=
  ⟨(claim_C10_qualified_alias_drop "Hong Kong" (by decide)).1,
   (claim_C10_qualified_alias_drop "Hong Kong" (by decide)).2.2 (List.replicate 41 none)⟩

/-- Claim C1 counterexample: `AUT` is one of the listed three-letter
codes of a registry country, yet a record with member code `"AUT"` and a
member name matching no alias resolves to nothing at all — the code tier
requires the member code to equal the first three letters of a registry
country name (spaces removed), which no registry name provides for
`AUT`. -/
theorem claim_C1_counterexample :
    ("AUT" : String) ∈ THREE_LETTER_CODES ∧
    codeTier "AUT" = none ∧
    resolveMember "XYZ Bank" "AUT" = none ∧
    resolveMember "XYZ Bank" "AUT" ≠ some "NABIMFD.AUT.M" := by
  exact ⟨by decide, by decide, by decide, by decide⟩

/-- Claim C1 amended: the code tier resolves a member code (regardless of
the member name) only for the 19 listed codes that also equal the first
three letters of some registry country name with spaces removed — AUS,
BEL, BRA, CAN, CYP, FIN, FRA, IND, ISR, ITA, KOR, LUX, MEX, NOR, POL,
RUS, SAU, SWE, THA — while
the remaining 20 listed codes (AUT, CHL, CHN, DNK, DEU, GRC, IRL, JPN,
KWT, MYS, NLD, NZL, PHL, PRT, SGP, ZAF, ESP, CHE, GBR, USA) never match
the code tier; in particular member code `"FRA"` with member name
`"Banque de France"` resolves to `NABIMFD.FRA.M` via the code tier. -/
theorem claim_C1_amended :
    (∀ name : String,
      resolveMember name "AUS" = some "NABIMFD.AUS.M" ∧
      resolveMember name "BEL" = some "NABIMFD.BEL.M" ∧
      resolveMember name "BRA" = some "NABIMFD.BRA.M" ∧
      resolveMember name "CAN" = some "NABIMFD.CAN.M" ∧
      resolveMember name "CYP" = some "NABIMFD.CYP.M" ∧
      resolveMember name "FIN" = some "NABIMFD.FIN.M" ∧
      resolveMember name "FRA" = some "NABIMFD.FRA.M" ∧
      resolveMember name "IND" = some "NABIMFD.IND.M" ∧
      resolveMember name "ISR" = some "NABIMFD.ISR.M" ∧
      resolveMember name "ITA" = some "NABIMFD.ITA.M" ∧
      resolveMember name "KOR" = some "NABIMFD.KOR.M" ∧
      resolveMember name "LUX" = some "NABIMFD.LUX.M" ∧
      resolveMember name "MEX" = some "NABIMFD.MEX.M" ∧
      resolveMember name "NOR" = some "NABIMFD.NOR.M" ∧
      resolveMember name "POL" = some "NABIMFD.POL.M" ∧
      resolveMember name "RUS" = some "NABIMFD.RUS.M" ∧
      resolveMember name "SAU" = some "NABIMFD.SAU.M" ∧
      resolveMember name "SWE" = some "NABIMFD.SWE.M" ∧
      resolveMember name "THA" = some "NABIMFD.THA.M") ∧
    (codeTier "AUT" = none ∧ codeTier "CHL" = none ∧ codeTier "CHN" = none ∧
     codeTier "DNK" = none ∧ codeTier "DEU" = none ∧ codeTier "GRC" = none ∧
     codeTier "IRL" = none ∧ codeTier "JPN" = none ∧ codeTier "KWT" = none ∧
     codeTier "MYS" = none ∧ codeTier "NLD" = none ∧ codeTier "NZL" = none ∧
     codeTier "PHL" = none ∧ codeTier "PRT" = none ∧ codeTier "SGP" = none ∧
     codeTier "ZAF" = none ∧ codeTier "ESP" = none ∧ codeTier "CHE" = none ∧
     codeTier "GBR" = none ∧ codeTier "USA" = none) ∧
    resolveMember "Banque de France" "FRA" = some "NABIMFD.FRA.M" := by
  refine ⟨?_, by decide, by decide⟩
  intro name
  exact ⟨rfl, rfl, rfl, rfl, rfl, rfl, rfl, rfl, rfl, rfl,
         rfl, rfl, rfl, rfl, rfl, rfl, rfl, rfl, rfl⟩

/-- A single fill-loop iteration preserves the row length. -/
theorem processRecord_length (row : List (Option ℚ)) (r : Rec) :
    (processRecord row r).length = row.length := by
  unfold processRecord
  cases h : recTarget r with
  | none => rfl
  | some p => simp

/-- The whole fill loop preserves the row length. -/
theorem foldl_processRecord_length (l : List Rec) (row : List (Option ℚ)) :
    (l.foldl processRecord row).length = row.length := by
  induction l generalizing row with
  | nil => rfl
  | cons r l ih => simp [List.foldl_cons, ih, processRecord_length]

/-- Records that do not target a column leave that column unchanged
through the fill loop. -/
theorem foldl_processRecord_untouched {l : List Rec} {idx : ℕ}
    (h : ∀ r ∈ l, ∀ p : ℕ × ℚ, recTarget r = some p → p.1 ≠ idx)
    (row : List (Option ℚ)) :
    (l.foldl processRecord row)[idx]? = row[idx]? := by
  induction l generalizing row with
  | nil => rfl
  | cons r l ih =>
    rw [List.foldl_cons, ih (fun r hr => h r (List.mem_cons_of_mem _ hr))]
    unfold processRecord
    cases ht : recTarget r with
    | none => rfl
    | some p =>
      exact List.getElem?_set_ne (h r (List.mem_cons_self r l) p ht)

/-- Claim C7: the fill loop applies last-write-wins.  For any iteration
order in which records `r1` and then `r2` both target column `idx`, and
no later record targets `idx`, the final cell holds `r2`'s amount,
overwriting `r1`'s. -/
theorem claim_C7_last_write_wins :
    ∀ (l0 l1 l2 : List Rec) (r1 r2 : Rec) (idx : ℕ) (a1 a2 : ℚ),
      recTarget r1 = some (idx, a1) →
      recTarget r2 = some (idx, a2) →
      (∀ r ∈ l2, ∀ p : ℕ × ℚ, recTarget r = some p → p.1 ≠ idx) →
      idx < 41 →
      (buildCells (l0 ++ r1 :: l1 ++ r2 :: l2))[idx]? = some (some a2) := by
  intro l0 l1 l2 r1 r2 idx a1 a2 h1 h2 hrest hidx
  unfold buildCells
  have hsplit : l0 ++ r1 :: l1 ++ r2 :: l2 = (l0 ++ r1 :: l1) ++ r2 :: l2 := by
    simp
  rw [hsplit, List.foldl_append, List.foldl_cons,
    foldl_processRecord_untouched hrest, processRecord_eq_of_some h2]
  have hl : (List.replicate STANDARD_COLUMN_ORDER.length (none : Option ℚ)).length = 41 := by
    decide
  exact List.getElem?_set_self (by rw [foldl_processRecord_length, hl]; exact hidx)

/-- Witness for C7: two France rows, 100 then 200; the cell ends at 200. -/
theorem claim_C7_witness :
    recTarget recFrance100 = some (11, 100) ∧
    recTarget recFrance200 = some (11, 200) ∧
    (buildCells [recFrance100, recFrance200])[11]? = some (some (200 : ℚ)) :=
  ⟨by decide, by decide,
   claim_C7_last_write_wins [] [] [] recFrance100 recFrance200 11 100 200
     (by decide) (by decide) (by simp) (by decide)⟩

/-- Claim C2: on the two-row artifact with the `As of: June 30, 2025`
header, row 3 carries the date `2025-06` in its first cell and `500000`
in the `NABIMFD.FRA.M` column (index 11 of the column order), with every
other amount cell empty; the run-time month is irrelevant. -/
theorem claim_C2_end_to_end :
    (∀ now : String,
        mapperRow3 sampleContent now [recFrance500k, recStandBy] =
          ("2025-06", (List.replicate 41 none).set 11 (some (500000 : ℚ)))) ∧
    STANDARD_COLUMN_ORDER.indexOf "NABIMFD.FRA.M" = 11 ∧
    STANDARD_COLUMN_ORDER.length = 41 := by
  refine ⟨fun now => rfl, by decide, by decide⟩

/-! ### Lemmas about the date scanner -/

/-- A successful case-insensitive literal match leaves a suffix. -/
theorem dropCI_suffix {p s r : List Char} (h : dropCI p s = some r) :
    ∃ u, s = u ++ r := by
  induction p generalizing s with
  | nil =>
    simp only [dropCI] at h
    injection h with h
    exact ⟨[], by simp [h]⟩
  | cons a ps ih =>
    cases s with
    | nil => simp [dropCI] at h
    | cons c cs =>
      simp only [dropCI] at h
      split at h
      · obtain ⟨u, hu⟩ := ih h
        exact ⟨c :: u, by simp [hu]⟩
      · cases h

/-- A successful literal match survives appending on the right. -/
theorem dropCI_append {p t : List Char} (e : List Char) {r : List Char}
    (h : dropCI p t = some r) : dropCI p (t ++ e) = some (r ++ e) := by
  induction p generalizing t with
  | nil =>
    simp only [dropCI] at h ⊢
    injection h with h
    rw [h]
  | cons a ps ih =>
    cases t with
    | nil => simp [dropCI] at h
    | cons c cs =>
      simp only [List.cons_append, dropCI] at h ⊢
      split at h
      case isTrue hc => simpa [hc] using ih h
      case isFalse hc => cases h

theorem ciPre_mono {p t : List Char} (e : List Char) (h : ciPre p t = true) :
    ciPre p (t ++ e) = true := by
  unfold ciPre at h ⊢
  cases hd : dropCI p t with
  | none => rw [hd] at h; cases h
  | some r => rw [dropCI_append e hd]; rfl

/-- If two literals both match at the head of `s`, the shorter one
matches case-insensitively at the head of the longer. -/
theorem ciPre_of_both {p q s : List Char} (hp : ciPre p s = true)
    (hq : ciPre q s = true) (hlen : p.length ≤ q.length) :
    ciPre p q = true := by
  induction p generalizing q s with
  | nil => rfl
  | cons a ps ih =>
    cases q with
    | nil => simp at hlen
    | cons b qs =>
      cases s with
      | nil => simp [ciPre, dropCI] at hp
      | cons c cs =>
        simp only [ciPre, dropCI] at hp hq ⊢
        by_cases h1 : c.toLower = a.toLower
        · by_cases h2 : c.toLower = b.toLower
          · have hba : b.toLower = a.toLower := by rw [← h2, h1]
            simp only [h1, if_true] at hp
            simp only [h2, if_true] at hq
            simp only [hba, if_true]
            exact ih hp hq (by simpa using hlen)
          · simp [h2] at hq
        · simp [h1] at hp

/-- No month name is a case-insensitive head of another. -/
theorem months_ci_pairwise :
    MONTHS.Pairwise
      (fun a b => ciPre a.1.data b.1.data = false ∧ ciPre b.1.data a.1.data = false) := by
  decide

/-- A successful month alternation exhibits a matching name. -/
theorem monthLoop_mem {t : List Char} {L : List (String × ℕ)} {m : ℕ}
    {r : List Char} (h : monthLoop t L = some (m, r)) :
    ∃ p ∈ L, ciPre p.1.data t = true := by
  induction L with
  | nil => cases h
  | cons hd tl ih =>
    obtain ⟨name, num⟩ := hd
    simp only [monthLoop] at h
    cases hd1 : dropCI name.data t with
    | some r0 =>
      exact ⟨(name, num), List.mem_cons_self _ _, by simp [ciPre, hd1]⟩
    | none =>
      rw [hd1] at h
      obtain ⟨p, hmem, hp⟩ := ih h
      exact ⟨p, List.mem_cons_of_mem _ hmem, hp⟩

/-- The month alternation is stable under appending on the right, because
the month names are pairwise non-overlapping. -/
theorem monthLoop_append {L : List (String × ℕ)}
    (hpw : L.Pairwise
      (fun a b => ciPre a.1.data b.1.data = false ∧ ciPre b.1.data a.1.data = false))
    {t : List Char} (e : List Char) {m : ℕ} {r : List Char}
    (h : monthLoop t L = some (m, r)) :
    monthLoop (t ++ e) L = some (m, r ++ e) := by
  induction L with
  | nil => cases h
  | cons hd tl ih =>
    obtain ⟨name, num⟩ := hd
    rw [List.pairwise_cons] at hpw
    simp only [monthLoop] at h ⊢
    cases hd1 : dropCI name.data t with
    | some r0 =>
      rw [hd1] at h
      injection h with h
      injection h with hm hr
      rw [dropCI_append e hd1, hm, hr]
    | none =>
      rw [hd1] at h
      have htl := ih hpw.2 h
      cases hd2 : dropCI name.data (t ++ e) with
      | none => exact htl
      | some u =>
        exfalso
        obtain ⟨p, hpmem, hp⟩ := monthLoop_mem h
        have h1 : ciPre name.data (t ++ e) = true := by
          unfold ciPre; rw [hd2]; rfl
        have h2 : ciPre p.1.data (t ++ e) = true := ciPre_mono e hp
        have hrel := hpw.1 p hpmem
        rcases Nat.le_total name.data.length p.1.data.length with hle | hle
        · have hcontr := ciPre_of_both h1 h2 hle
          rw [hrel.1] at hcontr
          cases hcontr
        · have hcontr := ciPre_of_both h2 h1 hle
          rw [hrel.2] at hcontr
          cases hcontr

/-- `dropWhile` distributes over an append when it is already nonempty. -/
theorem dropWhile_append_stable {p : Char → Bool} {l : List Char}
    (e : List Char) (h : l.dropWhile p ≠ []) :
    (l ++ e).dropWhile p = l.dropWhile p ++ e := by
  rw [List.dropWhile_append]
  simp [List.isEmpty_iff, h]

/-- `takeWhile` ignores an append when the drop part is nonempty. -/
theorem takeWhile_append_stable {p : Char → Bool} {l : List Char}
    (e : List Char) (h : l.dropWhile p ≠ []) :
    (l ++ e).takeWhile p = l.takeWhile p := by
  rw [List.takeWhile_append]
  have hlt : (l.takeWhile p).length ≠ l.length := by
    intro hEq
    have hsum := congrArg List.length (List.takeWhile_append_dropWhile p l)
    rw [List.length_append, hEq] at hsum
    have hz : (l.dropWhile p).length = 0 := by omega
    exact h (List.length_eq_zero.mp hz)
  simp [hlt]

theorem commaSkip_append {cs : List Char} (e : List Char) (h : cs ≠ []) :
    commaSkip (cs ++ e) = commaSkip cs ++ e := by
  cases cs with
  | nil => exact absurd rfl h
  | cons c cs' =>
    by_cases hc : c = ',' <;> simp [commaSkip, hc]

/-- A successful `,?\s+(\d{4})` parse is stable under appending. -/
theorem yearTail_append {cs : List Char} (e : List Char) {y : ℕ}
    (h : yearTail cs = some y) : yearTail (cs ++ e) = some y := by
  have hcs : cs ≠ [] := by
    intro h0
    rw [h0] at h
    cases h
  unfold yearTail at h ⊢
  rw [commaSkip_append e hcs]
  split at h
  · cases h
  case isFalse hw =>
    cases hm : (commaSkip cs).dropWhile isPySpace with
    | nil => rw [hm] at h; cases h
    | cons a tl =>
      have hne : (commaSkip cs).dropWhile isPySpace ≠ [] := by rw [hm]; simp
      rw [takeWhile_append_stable e hne, dropWhile_append_stable e hne, hm]
      rw [hm] at h
      cases tl with
      | nil => cases h
      | cons b tl2 =>
        cases tl2 with
        | nil => cases h
        | cons c tl3 =>
          cases tl3 with
          | nil => cases h
          | cons d tl4 =>
            simpa [hw] using h

/-- A successful day/year parse still succeeds after appending (the
greedy two-digit day may reparse, but some parse survives). -/
theorem matchDayYear_append {cs : List Char} (e : List Char) {d y : ℕ}
    (h : matchDayYear cs = some (d, y)) :
    ∃ d' y', matchDayYear (cs ++ e) = some (d', y') := by
  match cs with
  | [] => cases h
  | [c1] => cases h
  | c1 :: c2 :: rest2 =>
    simp only [matchDayYear, List.cons_append] at h ⊢
    by_cases h1 : c1.isDigit = true
    case neg => rw [if_neg h1] at h; cases h
    case pos =>
      rw [if_pos h1] at h
      rw [if_pos h1]
      · by_cases h2 : c2.isDigit = true
        · rw [if_pos h2] at h
          rw [if_pos h2]
          cases hy2 : yearTail (rest2 ++ e) with
          | some y2 => exact ⟨10 * dval c1 + dval c2, y2, rfl⟩
          | none =>
            cases hyr2 : yearTail rest2 with
            | some yy =>
              exact absurd (yearTail_append e hyr2) (by simp [hy2])
            | none =>
              rw [hyr2] at h
              cases hyr1 : yearTail (c2 :: rest2) with
              | none => rw [hyr1] at h; cases h
              | some yy1 =>
                have h3 := yearTail_append e hyr1
                rw [List.cons_append] at h3
                exact ⟨dval c1, yy1, by rw [h3]⟩
        · rw [if_neg h2] at h
          rw [if_neg h2]
          cases hyr1 : yearTail (c2 :: rest2) with
          | none => rw [hyr1] at h; cases h
          | some yy1 =>
            have h3 := yearTail_append e hyr1
            rw [List.cons_append] at h3
            exact ⟨dval c1, yy1, by rw [h3]⟩

/-- A successful full date match still succeeds after appending. -/
theorem matchDateAt_append {cs : List Char} (e : List Char)
    {r : ℕ × ℕ × ℕ} (h : matchDateAt cs = some r) :
    ∃ r', matchDateAt (cs ++ e) = some r' := by
  unfold matchDateAt at h ⊢
  cases hm : monthLoop cs MONTHS with
  | none => rw [hm] at h; cases h
  | some p =>
    obtain ⟨m, rest⟩ := p
    rw [hm] at h
    rw [monthLoop_append months_ci_pairwise e hm]
    replace h : (if (rest.takeWhile isPySpace).isEmpty = true then none
        else
          match matchDayYear (rest.dropWhile isPySpace) with
          | some (d, y) => some (m, d, y)
          | none => none) = some r := h
    show ∃ r', (if ((rest ++ e).takeWhile isPySpace).isEmpty = true then none
        else
          match matchDayYear ((rest ++ e).dropWhile isPySpace) with
          | some (d, y) => some (m, d, y)
          | none => none) = some r'
    split at h
    next => cases h
    next hw =>
      cases hd : matchDayYear (rest.dropWhile isPySpace) with
      | none => rw [hd] at h; cases h
      | some dy =>
        obtain ⟨d, y⟩ := dy
        have hrest2 : rest.dropWhile isPySpace ≠ [] := by
          intro h0
          rw [h0] at hd
          cases hd
        rw [takeWhile_append_stable e hrest2, dropWhile_append_stable e hrest2]
        obtain ⟨d', y', hd'⟩ := matchDayYear_append e hd
        rw [hd']
        exact ⟨(m, d', y'), by rw [if_neg hw]⟩

/-- `findDate` failing on a catenation fails on the right part. -/
theorem findDate_append_none {u t : List Char}
    (h : findDate (u ++ t) = none) : findDate t = none := by
  induction u with
  | nil => exact h
  | cons a u' ih =>
    apply ih
    rw [List.cons_append] at h
    simp only [findDate] at h
    cases hm : matchDateAt (a :: (u' ++ t)) with
    | some r => rw [hm] at h; cases h
    | none => rw [hm] at h; exact h

/-- `findDate` failing means no match at the very head either. -/
theorem matchDateAt_none_of_findDate_none {l : List Char}
    (h : findDate l = none) : matchDateAt l = none := by
  cases l with
  | nil => decide
  | cons c cs =>
    simp only [findDate] at h
    cases hm : matchDateAt (c :: cs) with
    | some r => rw [hm] at h; cases h
    | none => rfl

/-- A successful `findDate` happens at some split point. -/
theorem findDate_some_split {s : List Char} {r : ℕ × ℕ × ℕ}
    (h : findDate s = some r) :
    ∃ u t, s = u ++ t ∧ matchDateAt t = some r := by
  induction s with
  | nil => cases h
  | cons c cs ih =>
    simp only [findDate] at h
    cases hm : matchDateAt (c :: cs) with
    | some r0 =>
      rw [hm] at h
      injection h with h
      exact ⟨[], c :: cs, rfl, by rw [hm, h]⟩
    | none =>
      rw [hm] at h
      obtain ⟨u, t, hs, hmt⟩ := ih h
      exact ⟨c :: u, t, by rw [List.cons_append, hs], hmt⟩

/-- If the whole text has no date, no inner segment has one. -/
theorem findDate_none_of_within {l x : List Char} (h : findDate l = none)
    (hseg : ∃ u v, l = u ++ (x ++ v)) : findDate x = none := by
  cases hx : findDate x with
  | none => rfl
  | some r =>
    exfalso
    obtain ⟨u, v, hl⟩ := hseg
    obtain ⟨u', t, hs, hmt⟩ := findDate_some_split hx
    obtain ⟨r', hr'⟩ := matchDateAt_append v hmt
    have hrest : findDate (t ++ v) = none := by
      apply findDate_append_none
      show findDate ((u ++ u') ++ (t ++ v)) = none
      have : (u ++ u') ++ (t ++ v) = u ++ (x ++ v) := by
        rw [hs]
        simp
      rw [this]
      exact hl ▸ h
    rw [matchDateAt_none_of_findDate_none hrest] at hr'
    cases hr'

/-- `str.strip()` keeps an inner segment of its input. -/
theorem pyStripL_within (s : List Char) :
    ∃ u v, s = u ++ (pyStripL s ++ v) := by
  refine ⟨s.takeWhile isPySpace,
    ((s.dropWhile isPySpace).reverse.takeWhile isPySpace).reverse, ?_⟩
  unfold pyStripL
  conv_lhs => rw [← List.takeWhile_append_dropWhile isPySpace s]
  congr 1
  conv_lhs =>
    rw [← List.reverse_reverse (s.dropWhile isPySpace),
      ← List.takeWhile_append_dropWhile isPySpace (s.dropWhile isPySpace).reverse]
  rw [List.reverse_append]

/-- An element of the right-to-left backtracking scan belongs to the
scanned list. -/
theorem mem_of_reverse_dropWhile {c : Char} {rest l : List Char}
    (h : l.reverse.dropWhile isCRLFTab = c :: rest) : c ∈ l := by
  have h1 : c ∈ l.reverse.dropWhile isCRLFTab := by
    rw [h]; exact List.mem_cons_self _ _
  have h2 : c ∈ l.reverse := by
    have hsplit := List.takeWhile_append_dropWhile isCRLFTab l.reverse
    rw [← hsplit]
    exact List.mem_append_right _ h1
  simpa using h2

/-- The `\s*([^\r\n\t]+)` capture is a segment of its input. -/
theorem capAfterWS_within {t cap : List Char} (h : capAfterWS t = some cap) :
    ∃ u v, t = u ++ (cap ++ v) := by
  replace h : (if (t.dropWhile isPySpace).isEmpty = true then
      match t.reverse.dropWhile isCRLFTab with
      | c :: _ => some [c]
      | [] => none
    else some ((t.dropWhile isPySpace).takeWhile (fun c => !isCRLFTab c))) =
      some cap := h
  by_cases hr : (t.dropWhile isPySpace).isEmpty = true
  · rw [if_pos hr] at h
    cases hrev : t.reverse.dropWhile isCRLFTab with
    | nil => rw [hrev] at h; cases h
    | cons c rest =>
      rw [hrev] at h
      injection h with h
      obtain ⟨s1, s2, hsplit⟩ := List.append_of_mem (mem_of_reverse_dropWhile hrev)
      exact ⟨s1, s2, by rw [hsplit, ← h]; rfl⟩
  · rw [if_neg hr] at h
    injection h with h
    refine ⟨t.takeWhile isPySpace,
      (t.dropWhile isPySpace).dropWhile (fun c => !isCRLFTab c), ?_⟩
    conv_lhs => rw [← List.takeWhile_append_dropWhile isPySpace t]
    congr 1
    rw [← h]
    exact (List.takeWhile_append_dropWhile _ _).symm

/-- The `\s*:` step leaves a suffix. -/
theorem colonAfterWS_suffix {t r : List Char} (h : colonAfterWS t = some r) :
    ∃ u, t = u ++ r := by
  unfold colonAfterWS at h
  cases hd : t.dropWhile isPySpace with
  | nil => rw [hd] at h; cases h
  | cons c rest =>
    rw [hd] at h
    replace h : (if c = ':' then some rest else none) = some r := h
    by_cases hc : c = ':'
    · rw [if_pos hc] at h
      injection h with h
      subst hc
      refine ⟨t.takeWhile isPySpace ++ [':'], ?_⟩
      conv_lhs => rw [← List.takeWhile_append_dropWhile isPySpace t]
      rw [hd, ← h]
      simp
    · rw [if_neg hc] at h
      cases h

/-- The `[:\s]+([^\r\n\t]+)` capture is a segment of its input. -/
theorem pat3Tail_within {t cap : List Char} (h : pat3Tail t = some cap) :
    ∃ u v, t = u ++ (cap ++ v) := by
  replace h : (if (t.takeWhile isColonOrSpace).isEmpty = true then none
    else if (t.dropWhile isColonOrSpace).isEmpty = true then
      match t.takeWhile isColonOrSpace with
      | [] => none
      | _ :: tailRun =>
        match tailRun.reverse.dropWhile isCRLFTab with
        | c :: _ => some [c]
        | [] => none
    else some ((t.dropWhile isColonOrSpace).takeWhile (fun c => !isCRLFTab c))) =
      some cap := h
  by_cases hrun : (t.takeWhile isColonOrSpace).isEmpty = true
  · rw [if_pos hrun] at h; cases h
  rw [if_neg hrun] at h
  by_cases hrest : (t.dropWhile isColonOrSpace).isEmpty = true
  · rw [if_pos hrest] at h
    cases hr0 : t.takeWhile isColonOrSpace with
    | nil => rw [hr0] at h; cases h
    | cons hd1 tailRun =>
      rw [hr0] at h
      replace h : (match tailRun.reverse.dropWhile isCRLFTab with
          | c :: _ => some [c]
          | [] => none) = some cap := h
      cases hrev : tailRun.reverse.dropWhile isCRLFTab with
      | nil => rw [hrev] at h; cases h
      | cons c rest =>
        rw [hrev] at h
        injection h with h
        have hc : c ∈ t := by
          have h3 : c ∈ tailRun := mem_of_reverse_dropWhile hrev
          have h4 : c ∈ t.takeWhile isColonOrSpace := by
            rw [hr0]; exact List.mem_cons_of_mem _ h3
          have hsplit := List.takeWhile_append_dropWhile isColonOrSpace t
          rw [← hsplit]
          exact List.mem_append_left _ h4
        obtain ⟨s1, s2, hsplit⟩ := List.append_of_mem hc
        exact ⟨s1, s2, by rw [hsplit, ← h]; rfl⟩
  · rw [if_neg hrest] at h
    injection h with h
    refine ⟨t.takeWhile isColonOrSpace,
      (t.dropWhile isColonOrSpace).dropWhile (fun c => !isCRLFTab c), ?_⟩
    conv_lhs => rw [← List.takeWhile_append_dropWhile isColonOrSpace t]
    congr 1
    rw [← h]
    exact (List.takeWhile_append_dropWhile _ _).symm

/-- The capture of pattern 1 is a segment of the text. -/
theorem pat1Search_within {l cap : List Char} (h : pat1Search l = some cap) :
    ∃ u v, l = u ++ (cap ++ v) := by
  induction l with
  | nil => cases h
  | cons c rest ih =>
    simp only [pat1Search] at h
    cases hd : dropCI ("As of:".data) (c :: rest) with
    | some t =>
      rw [hd] at h
      replace h : (match capAfterWS t with
          | some cap => some cap
          | none => pat1Search rest) = some cap := h
      cases hc : capAfterWS t with
      | some cap0 =>
        rw [hc] at h
        replace h : some cap0 = some cap := h
        injection h with h
        obtain ⟨u0, hu0⟩ := dropCI_suffix hd
        obtain ⟨u1, v1, ht⟩ := capAfterWS_within hc
        exact ⟨u0 ++ u1, v1, by rw [hu0, ht, h]; simp⟩
      | none =>
        rw [hc] at h
        replace h : pat1Search rest = some cap := h
        obtain ⟨u, v, hrest⟩ := ih h
        exact ⟨c :: u, v, by rw [List.cons_append, hrest]⟩
    | none =>
      rw [hd] at h
      replace h : pat1Search rest = some cap := h
      obtain ⟨u, v, hrest⟩ := ih h
      exact ⟨c :: u, v, by rw [List.cons_append, hrest]⟩

/-- The capture of pattern 2 is a segment of the text. -/
theorem pat2Search_within {l cap : List Char} (h : pat2Search l = some cap) :
    ∃ u v, l = u ++ (cap ++ v) := by
  induction l with
  | nil => cases h
  | cons c rest ih =>
    simp only [pat2Search] at h
    cases hd : dropCI ("As of".data) (c :: rest) with
    | some t =>
      rw [hd] at h
      replace h : (match colonAfterWS t with
          | some t2 =>
            match capAfterWS t2 with
            | some cap => some cap
            | none => pat2Search rest
          | none => pat2Search rest) = some cap := h
      cases hcol : colonAfterWS t with
      | some t2 =>
        rw [hcol] at h
        replace h : (match capAfterWS t2 with
            | some cap => some cap
            | none => pat2Search rest) = some cap := h
        cases hc : capAfterWS t2 with
        | some cap0 =>
          rw [hc] at h
          replace h : some cap0 = some cap := h
          injection h with h
          obtain ⟨u0, hu0⟩ := dropCI_suffix hd
          obtain ⟨u1, ht⟩ := colonAfterWS_suffix hcol
          obtain ⟨u2, v2, ht2⟩ := capAfterWS_within hc
          exact ⟨u0 ++ (u1 ++ u2), v2, by rw [hu0, ht, ht2, h]; simp⟩
        | none =>
          rw [hc] at h
          replace h : pat2Search rest = some cap := h
          obtain ⟨u, v, hrest⟩ := ih h
          exact ⟨c :: u, v, by rw [List.cons_append, hrest]⟩
      | none =>
        rw [hcol] at h
        replace h : pat2Search rest = some cap := h
        obtain ⟨u, v, hrest⟩ := ih h
        exact ⟨c :: u, v, by rw [List.cons_append, hrest]⟩
    | none =>
      rw [hd] at h
      replace h : pat2Search rest = some cap := h
      obtain ⟨u, v, hrest⟩ := ih h
      exact ⟨c :: u, v, by rw [List.cons_append, hrest]⟩

/-- The capture of pattern 3 is a segment of the text. -/
theorem pat3Search_within {l cap : List Char} (h : pat3Search l = some cap) :
    ∃ u v, l = u ++ (cap ++ v) := by
  induction l with
  | nil => cases h
  | cons c rest ih =>
    simp only [pat3Search] at h
    cases hd : dropCI ("as of".data) (c :: rest) with
    | some t =>
      rw [hd] at h
      replace h : (match pat3Tail t with
          | some cap => some cap
          | none => pat3Search rest) = some cap := h
      cases hc : pat3Tail t with
      | some cap0 =>
        rw [hc] at h
        replace h : some cap0 = some cap := h
        injection h with h
        obtain ⟨u0, hu0⟩ := dropCI_suffix hd
        obtain ⟨u1, v1, ht⟩ := pat3Tail_within hc
        exact ⟨u0 ++ u1, v1, by rw [hu0, ht, h]; simp⟩
      | none =>
        rw [hc] at h
        replace h : pat3Search rest = some cap := h
        obtain ⟨u, v, hrest⟩ := ih h
        exact ⟨c :: u, v, by rw [List.cons_append, hrest]⟩
    | none =>
      rw [hd] at h
      replace h : pat3Search rest = some cap := h
      obtain ⟨u, v, hrest⟩ := ih h
      exact ⟨c :: u, v, by rw [List.cons_append, hrest]⟩

/-- Case-insensitive matching only depends on lowercased patterns. -/
theorem dropCI_congr {p q : List Char}
    (hpq : p.map Char.toLower = q.map Char.toLower) :
    ∀ s, dropCI p s = dropCI q s := by
  induction p generalizing q with
  | nil =>
    cases q with
    | nil => intro s; rfl
    | cons b qs => simp at hpq
  | cons a ps ih =>
    cases q with
    | nil => simp at hpq
    | cons b qs =>
      simp only [List.map_cons, List.cons.injEq] at hpq
      intro s
      cases s with
      | nil => rfl
      | cons c cs =>
        simp only [dropCI, hpq.1, ih hpq.2]

/-- A match of a catenated literal factors through its parts. -/
theorem dropCI_split {p q s r : List Char}
    (h : dropCI (p ++ q) s = some r) :
    ∃ mid, dropCI p s = some mid ∧ dropCI q mid = some r := by
  induction p generalizing s with
  | nil => exact ⟨s, rfl, h⟩
  | cons a ps ih =>
    cases s with
    | nil => simp [dropCI] at h
    | cons c cs =>
      simp only [List.cons_append, dropCI] at h ⊢
      split at h
      case isTrue hc =>
        obtain ⟨mid, h1, h2⟩ := ih h
        exact ⟨mid, by simp [hc, h1], h2⟩
      case isFalse hc => cases h

/-- When the text holds no case-insensitive `"as of"` at all, none of the
three `as_of_patterns` can match. -/
theorem searches_none_of_no_asof {l : List Char}
    (h : containsCI ("as of".data) l = false) :
    pat1Search l = none ∧ pat2Search l = none ∧ pat3Search l = none := by
  induction l with
  | nil => exact ⟨rfl, rfl, rfl⟩
  | cons c rest ih =>
    simp only [containsCI, Bool.or_eq_false_iff] at h
    obtain ⟨h1, h2⟩ := h
    obtain ⟨ih1, ih2, ih3⟩ := ih h2
    have hcongr := dropCI_congr
      (show ("As of".data).map Char.toLower = ("as of".data).map Char.toLower by decide)
      (c :: rest)
    have h1' : (dropCI ("as of".data) (c :: rest)).isSome = false := h1
    refine ⟨?_, ?_, ?_⟩
    · simp only [pat1Search]
      cases hd : dropCI ("As of:".data) (c :: rest) with
      | some t =>
        exfalso
        have hsplit : ("As of:".data) = ("As of".data) ++ (":".data) := by decide
        rw [hsplit] at hd
        obtain ⟨mid, hmid, _⟩ := dropCI_split hd
        rw [← hcongr, hmid] at h1'
        exact absurd h1' (by simp)
      | none => exact ih1
    · simp only [pat2Search]
      cases hd : dropCI ("As of".data) (c :: rest) with
      | some t =>
        exfalso
        rw [← hcongr, hd] at h1'
        exact absurd h1' (by simp)
      | none => exact ih2
    · simp only [pat3Search]
      cases hd : dropCI ("as of".data) (c :: rest) with
      | some t =>
        exfalso
        rw [hd] at h1'
        exact absurd h1' (by simp)
      | none => exact ih3

/-- The per-pattern step falls through when the stripped capture holds no
date. -/
theorem patStep_eq_none {cs : List Char} (now : String)
    (h : findDate (pyStripL cs) = none) : patStep (some cs) now = none := by
  simp [patStep, h]

/-- If the whole text holds no date, no pattern's stripped capture does. -/
theorem findDate_strip_none {l s : List Char} (h : findDate l = none)
    (hw : ∃ u v, l = u ++ (s ++ v)) : findDate (pyStripL s) = none := by
  apply findDate_none_of_within h
  obtain ⟨u, v, hl⟩ := hw
  obtain ⟨u2, v2, hs⟩ := pyStripL_within s
  refine ⟨u ++ u2, v2 ++ v, ?_⟩
  rw [hl]
  conv_lhs => rw [hs]
  simp

/-- Claim C3: the date extractor's ordered fallback.  (1) When the first
`As of:` pattern matches and its captured trailing text holds a long-form
date that `strptime` accepts, the extractor returns it as zero-padded
`YYYY-MM`.  (2) When the text holds no `as of` marker at all but holds a
long-form date somewhere, the first such date is returned as `YYYY-MM`.
(3) When no date pattern occurs anywhere, the run-time current month
`now` is returned.  (4) The spec's concrete example:
`"As of: September 5, 2024"` yields `"2024-09"` for every `now`. -/
theorem claim_C3_date_extractor :
    (∀ (content now : String) (s : List Char) (m d y : ℕ),
        pat1Search content.data = some s →
        findDate (pyStripL s) = some (m, d, y) →
        validDate m d y = true →
        extract_date content now = fmtYM y m) ∧
    (∀ (content now : String) (m d y : ℕ),
        containsCI ("as of".data) content.data = false →
        findDate content.data = some (m, d, y) →
        validDate m d y = true →
        extract_date content now = fmtYM y m) ∧
    (∀ (content now : String),
        findDate content.data = none →
        extract_date content now = now) ∧
    (∀ now : String, extract_date "As of: September 5, 2024" now = "2024-09") := by
  refine ⟨?_, ?_, ?_, fun now => rfl⟩
  · intro content now s m d y h1 h2 h3
    unfold extract_date
    rw [h1]
    simp only [patStep, h2, h3, if_true]
  · intro content now m d y h1 h2 h3
    obtain ⟨p1, p2, p3⟩ := searches_none_of_no_asof h1
    unfold extract_date
    rw [p1, p2, p3]
    simp only [patStep, h2, h3, if_true]
  · intro content now h
    have k1 : patStep (pat1Search content.data) now = none := by
      cases hp : pat1Search content.data with
      | none => rfl
      | some s => exact patStep_eq_none now (findDate_strip_none h (pat1Search_within hp))
    have k2 : patStep (pat2Search content.data) now = none := by
      cases hp : pat2Search content.data with
      | none => rfl
      | some s => exact patStep_eq_none now (findDate_strip_none h (pat2Search_within hp))
    have k3 : patStep (pat3Search content.data) now = none := by
      cases hp : pat3Search content.data with
      | none => rfl
      | some s => exact patStep_eq_none now (findDate_strip_none h (pat3Search_within hp))
    unfold extract_date
    rw [k1, k2, k3, h]

/-- Witness for C3: the three fallback modes on concrete artifacts. -/
theorem claim_C3_witness :
    extract_date "As of: September 5, 2024" "2099-01" = "2024-09" ∧
    extract_date "body text effective October 12, 2023 no marker" "2099-01" = "2023-10" ∧
    extract_date "no date here" "2099-01" = "2099-01" :=
  ⟨claim_C3_date_extractor.1 "As of: September 5, 2024" "2099-01"
      ("September 5, 2024".data) 9 5 2024 (by decide) (by decide) (by decide),
   claim_C3_date_extractor.2.1 "body text effective October 12, 2023 no marker"
      "2099-01" 10 12 2023 (by decide) (by decide) (by decide),
   claim_C3_date_extractor.2.2.1 "no date here" "2099-01" (by decide)⟩

end NABIMFD
